import Mathlib

/-!
A shallow embedding of `src/main.js`.

The first half embeds the `debounce` utility together with an explicit host
timer environment: `setTimeout` appends a `HostTimer` carrying the captured
call arguments, `clearTimeout` removes a timer by handle, and firing a timer
runs the `later` closure (`clearTimeout(timeout); func(...args)`), recording
the execution of `func` in a log.

The second half embeds the `ScrollAnimations` tracker: `addElement`,
`animateElement`, the debounced scroll handler's `checkElementsInView`
rescan together with `isInViewport`, and the intersection-observer callback,
with the observer's target set and the `classList.add('animate')`
applications made explicit.
-/

/-- A timer scheduled in the host environment by `setTimeout`: its handle,
its absolute fire time, and the wrapper-call arguments captured by the
`later` closure of `debounce`. -/
structure HostTimer (α : Type) where
  handle : Nat
  fireTime : Nat
  args : α

deriving instance DecidableEq for HostTimer

/-- State of one wrapper returned by `debounce(func, wait)` together with
the host timer environment: `timeoutVar` is the closure's `timeout`
variable (an optional handle, initially undefined), `timers` the scheduled
and not-yet-fired timers, `execs` the log of executions of `func` as
(time, arguments) pairs. -/
structure DebounceSt (α : Type) where
  timeoutVar : Option Nat
  timers : List (HostTimer α)
  nextHandle : Nat
  execs : List (Nat × α)

deriving instance DecidableEq for DebounceSt

/-- `clearTimeout(h)`: remove the timer with handle `h` from the schedule;
`clearTimeout(undefined)` is a no-op. -/
def clearTimeoutL {α : Type} (timers : List (HostTimer α)) : Option Nat → List (HostTimer α)
  | none => timers
  | some h => timers.filter (fun tm => tm.handle != h)

/-- The host fires timer `tm`: the timer leaves the schedule and the `later`
closure runs, i.e. `clearTimeout(timeout)` followed by `func(...args)`,
which we record as an execution at the timer's fire time. -/
def fireTimer {α : Type} (st : DebounceSt α) (tm : HostTimer α) : DebounceSt α :=
  let remaining := st.timers.filter (fun t => t.handle != tm.handle)
  { st with timers := clearTimeoutL remaining st.timeoutVar,
            execs := st.execs ++ [(tm.fireTime, tm.args)] }

/-- Fire, one at a time, every scheduled timer whose fire time is at or
before the current time `t`; the fuel is bounded by the number of timers. -/
def fireDueAux {α : Type} (t : Nat) : Nat → DebounceSt α → DebounceSt α
  | 0, st => st
  | fuel + 1, st =>
    match st.timers.find? (fun tm => decide (tm.fireTime ≤ t)) with
    | none => st
    | some tm => fireDueAux t fuel (fireTimer st tm)

/-- Advance the host environment to time `t`: all timers due at or before
`t` fire. -/
def fireDue {α : Type} (t : Nat) (st : DebounceSt α) : DebounceSt α :=
  fireDueAux t st.timers.length st

/-- One invocation of the wrapper returned by `debounce(func, wait)` at
time `t` with arguments `a`: timers already due fire first (the host
dispatches them before the call's own task), then the wrapper body runs
`clearTimeout(timeout); timeout = setTimeout(later, wait)`. -/
def debCall {α : Type} (wait : Nat) (st : DebounceSt α) (t : Nat) (a : α) : DebounceSt α :=
  let st' := fireDue t st
  let cleared := clearTimeoutL st'.timers st'.timeoutVar
  { st' with timers := cleared ++ [⟨st'.nextHandle, t + wait, a⟩],
             timeoutVar := some st'.nextHandle,
             nextHandle := st'.nextHandle + 1 }

/-- A freshly created wrapper: `let timeout;` is undefined and no timer is
scheduled. -/
def debInit {α : Type} : DebounceSt α := ⟨none, [], 0, []⟩

/-- Run a time-ordered list of wrapper invocations (time, arguments) from a
given state. -/
def debRunFrom {α : Type} (wait : Nat) (calls : List (Nat × α)) (st : DebounceSt α) : DebounceSt α :=
  calls.foldl (fun s c => debCall wait s c.1 c.2) st

/-- Run a time-ordered list of wrapper invocations from the fresh wrapper. -/
def debRun {α : Type} (wait : Nat) (calls : List (Nat × α)) : DebounceSt α :=
  debRunFrom wait calls debInit

/-- Let time advance past every deadline: each remaining timer fires. -/
def flushAllAux {α : Type} : Nat → DebounceSt α → DebounceSt α
  | 0, st => st
  | fuel + 1, st =>
    match st.timers.head? with
    | none => st
    | some tm => flushAllAux fuel (fireTimer st tm)

/-- Fire every remaining timer. -/
def flushAll {α : Type} (st : DebounceSt α) : DebounceSt α :=
  flushAllAux st.timers.length st

/-- Run a call sequence from the fresh wrapper, then let every remaining
timer fire. -/
def debRunFlush {α : Type} (wait : Nat) (calls : List (Nat × α)) : DebounceSt α :=
  flushAll (debRun wait calls)

/-- The call times strictly increase starting from `prev` and each
consecutive gap is strictly less than `wait`. -/
def chainLT {α : Type} (wait : Nat) : Nat → List (Nat × α) → Bool
  | _, [] => true
  | prev, c :: rest =>
    (decide (prev < c.1) && decide (c.1 < prev + wait)) && chainLT wait c.1 rest

/-- Each call arrives strictly more than `wait` after the previous time. -/
def chainGT {α : Type} (wait : Nat) : Nat → List (Nat × α) → Bool
  | _, [] => true
  | prev, c :: rest => decide (prev + wait < c.1) && chainGT wait c.1 rest

/-! ### Elementary facts about single debounce steps -/

lemma debCall_init {α : Type} (wait t : Nat) (a : α) :
    debCall wait (debInit : DebounceSt α) t a = ⟨some 0, [⟨0, t + wait, a⟩], 1, []⟩ := by
  simp [debCall, debInit, fireDue, fireDueAux, clearTimeoutL]

lemma debCall_pending_not_due {α : Type} (wait prev t : Nat) (a0 a : α) (h0 n0 : Nat)
    (E : List (Nat × α)) (hlt : ¬ prev + wait ≤ t) :
    debCall wait ⟨some h0, [⟨h0, prev + wait, a0⟩], n0, E⟩ t a
      = ⟨some n0, [⟨n0, t + wait, a⟩], n0 + 1, E⟩ := by
  simp [debCall, fireDue, fireDueAux, List.find?, hlt, clearTimeoutL]

lemma debCall_pending_due {α : Type} (wait prev t : Nat) (a0 a : α) (h0 n0 : Nat)
    (E : List (Nat × α)) (hge : prev + wait ≤ t) :
    debCall wait ⟨some h0, [⟨h0, prev + wait, a0⟩], n0, E⟩ t a
      = ⟨some n0, [⟨n0, t + wait, a⟩], n0 + 1, E ++ [(prev + wait, a0)]⟩ := by
  simp [debCall, fireDue, fireDueAux, List.find?, hge, fireTimer, clearTimeoutL]

lemma flushAll_single {α : Type} (h' T : Nat) (A : α) (n' : Nat) (E : List (Nat × α)) :
    flushAll (⟨some h', [⟨h', T, A⟩], n', E⟩ : DebounceSt α) = ⟨some h', [], n', E ++ [(T, A)]⟩ := by
  simp [flushAll, flushAllAux, fireTimer, clearTimeoutL]

lemma debRunFrom_cons {α : Type} (wait : Nat) (c : Nat × α) (calls : List (Nat × α))
    (st : DebounceSt α) :
    debRunFrom wait (c :: calls) st = debRunFrom wait calls (debCall wait st c.1 c.2) := rfl

/-! ### The collapsing run: all gaps strictly below `wait` -/

lemma debRunFrom_chainLT {α : Type} (wait : Nat) :
    ∀ (calls : List (Nat × α)) (prev : Nat) (a0 : α) (h0 n0 : Nat) (E : List (Nat × α)),
      chainLT wait prev calls = true →
      ∃ h' n', debRunFrom wait calls ⟨some h0, [⟨h0, prev + wait, a0⟩], n0, E⟩
        = ⟨some h', [⟨h', (calls.getLastD (prev, a0)).1 + wait, (calls.getLastD (prev, a0)).2⟩],
            n', E⟩
  | [], prev, a0, h0, n0, E, _ => ⟨h0, n0, by simp [debRunFrom]⟩
  | (t, a) :: rest, prev, a0, h0, n0, E, hch => by
    simp only [chainLT, Bool.and_eq_true, decide_eq_true_eq] at hch
    obtain ⟨⟨h1, h2⟩, h3⟩ := hch
    rw [debRunFrom_cons]
    rw [debCall_pending_not_due wait prev t a0 a h0 n0 E (by omega)]
    obtain ⟨h', n', ih⟩ := debRunFrom_chainLT wait rest t a n0 (n0 + 1) E h3
    exact ⟨h', n', by rw [ih, List.getLastD_cons]⟩

/-- C1: debounce collapsing — for every `wait > 0` and a nonempty sequence of
wrapper invocations in which consecutive calls are less than `wait` apart,
`func` executes exactly once, with the arguments of the last call, at time
(last call time + `wait`). -/
theorem debounce_collapsing {α : Type} (wait : Nat) (c : Nat × α) (calls : List (Nat × α))
    (_hw : 0 < wait) (hch : chainLT wait c.1 calls = true) :
    (debRunFlush wait (c :: calls)).execs
      = [((calls.getLastD c).1 + wait, (calls.getLastD c).2)] := by
  obtain ⟨t0, a0⟩ := c
  have run : debRun wait ((t0, a0) :: calls)
      = debRunFrom wait calls ⟨some 0, [⟨0, t0 + wait, a0⟩], 1, []⟩ := by
    rw [debRun, debRunFrom_cons, debCall_init]
  obtain ⟨h', n', hrun⟩ := debRunFrom_chainLT wait calls t0 a0 0 1 [] hch
  rw [debRunFlush, run, hrun, flushAll_single]
  simp

/-- Witness for C1, matching the spec's own example: wrap with `wait = 100`,
call with argument 1 at t=0, 2 at t=30, 3 at t=60; exactly one execution,
with argument 3, at t=160. -/
theorem debounce_collapsing_witness :
    0 < 100 ∧ chainLT 100 0 [(30, 2), (60, 3)] = true ∧
      (debRunFlush 100 [(0, (1 : Nat)), (30, 2), (60, 3)]).execs = [(160, 3)] := by
  refine ⟨by decide, by decide, ?_⟩
  rw [debounce_collapsing 100 (0, (1 : Nat)) [(30, 2), (60, 3)] (by decide) (by decide)]
  decide

/-! ### The spacing run: all gaps strictly above `wait` -/

lemma debRunFlush_chainGT {α : Type} (wait : Nat) :
    ∀ (calls : List (Nat × α)) (prev : Nat) (a0 : α) (h0 n0 : Nat) (E : List (Nat × α)),
      chainGT wait prev calls = true →
      (flushAll (debRunFrom wait calls ⟨some h0, [⟨h0, prev + wait, a0⟩], n0, E⟩)).execs
        = E ++ ((prev, a0) :: calls).map (fun p => (p.1 + wait, p.2))
  | [], prev, a0, h0, n0, E, _ => by
    simp [debRunFrom, flushAll_single]
  | (t, a) :: rest, prev, a0, h0, n0, E, hch => by
    simp only [chainGT, Bool.and_eq_true, decide_eq_true_eq] at hch
    obtain ⟨h1, h3⟩ := hch
    rw [debRunFrom_cons]
    rw [debCall_pending_due wait prev t a0 a h0 n0 E (by omega)]
    rw [debRunFlush_chainGT wait rest t a n0 (n0 + 1) (E ++ [(prev + wait, a0)]) h3]
    simp

/-- C7: debounce spacing — for every `wait > 0`, if successive calls are each
spaced more than `wait` apart, each call produces exactly one independent
execution of `func` with that call's arguments (at that call's time plus
`wait`). -/
theorem debounce_spacing {α : Type} (wait : Nat) (c : Nat × α) (calls : List (Nat × α))
    (_hw : 0 < wait) (hch : chainGT wait c.1 calls = true) :
    (debRunFlush wait (c :: calls)).execs = (c :: calls).map (fun p => (p.1 + wait, p.2)) := by
  obtain ⟨t0, a0⟩ := c
  have run : debRun wait ((t0, a0) :: calls)
      = debRunFrom wait calls ⟨some 0, [⟨0, t0 + wait, a0⟩], 1, []⟩ := by
    rw [debRun, debRunFrom_cons, debCall_init]
  rw [debRunFlush, run]
  exact debRunFlush_chainGT wait calls t0 a0 0 1 [] hch

/-- Witness for C7: `wait = 10`, calls at t=0 and t=20 (gap 20 > 10): two
independent executions, at t=10 with argument 1 and t=30 with argument 2. -/
theorem debounce_spacing_witness :
    0 < 10 ∧ chainGT 10 0 [(20, 2)] = true ∧
      (debRunFlush 10 [(0, (1 : Nat)), (20, 2)]).execs = [(10, 1), (30, 2)] := by
  refine ⟨by decide, by decide, ?_⟩
  rw [debounce_spacing 10 (0, (1 : Nat)) [(20, 2)] (by decide) (by decide)]
  decide

/-! ### The pending-timer invariant -/

/-- At most one timer is scheduled and the closure's `timeout` variable holds
its handle. -/
def DebInv {α : Type} (st : DebounceSt α) : Prop :=
  st.timers.length ≤ 1 ∧ ∀ tm ∈ st.timers, st.timeoutVar = some tm.handle

lemma clearTimeoutL_mem {α : Type} {timers : List (HostTimer α)} {tv : Option Nat}
    {tm : HostTimer α} (h : tm ∈ clearTimeoutL timers tv) : tm ∈ timers := by
  cases tv with
  | none => exact h
  | some h0 => exact (List.mem_filter.1 h).1

lemma clearTimeoutL_length {α : Type} (timers : List (HostTimer α)) (tv : Option Nat) :
    (clearTimeoutL timers tv).length ≤ timers.length := by
  cases tv with
  | none => exact le_refl _
  | some h0 => exact List.length_filter_le _ _

lemma fireTimer_inv {α : Type} {st : DebounceSt α} (tm : HostTimer α) (h : DebInv st) :
    DebInv (fireTimer st tm) := by
  constructor
  · exact le_trans (le_trans (clearTimeoutL_length _ _) (List.length_filter_le _ _)) h.1
  · intro t ht
    exact h.2 t ((List.mem_filter.1 (clearTimeoutL_mem ht)).1)

lemma fireDueAux_inv {α : Type} (t : Nat) :
    ∀ (fuel : Nat) (st : DebounceSt α), DebInv st → DebInv (fireDueAux t fuel st)
  | 0, st, h => h
  | fuel + 1, st, h => by
    rw [fireDueAux]
    cases hf : st.timers.find? (fun tm => decide (tm.fireTime ≤ t)) with
    | none => exact h
    | some tm => exact fireDueAux_inv t fuel _ (fireTimer_inv tm h)

lemma clearTimeoutL_of_inv {α : Type} {timers : List (HostTimer α)} {tv : Option Nat}
    (h : ∀ tm ∈ timers, tv = some tm.handle) : clearTimeoutL timers tv = [] := by
  cases tv with
  | none =>
    cases timers with
    | nil => rfl
    | cons tm rest => exact absurd (h tm (List.mem_cons_self _ _)) (by simp)
  | some h0 =>
    simp only [clearTimeoutL]
    rw [List.filter_eq_nil_iff]
    intro tm htm
    have := h tm htm
    simp only [Option.some.injEq] at this
    simp [this]

lemma debCall_timers_of_inv {α : Type} (wait : Nat) {st : DebounceSt α} (t : Nat) (a : α)
    (h : DebInv st) :
    (debCall wait st t a).timers = [⟨(fireDue t st).nextHandle, t + wait, a⟩]
      ∧ DebInv (debCall wait st t a) := by
  have hinv' : DebInv (fireDue t st) := fireDueAux_inv t _ st h
  have hclear : clearTimeoutL (fireDue t st).timers (fireDue t st).timeoutVar = [] :=
    clearTimeoutL_of_inv hinv'.2
  constructor
  · simp [debCall, hclear]
  · refine ⟨by simp [debCall, hclear], ?_⟩
    intro tm htm
    simp only [debCall, hclear, List.nil_append, List.mem_singleton] at htm
    simp [debCall, hclear, htm]

lemma debRunFrom_inv {α : Type} (wait : Nat) :
    ∀ (calls : List (Nat × α)) (st : DebounceSt α), DebInv st → DebInv (debRunFrom wait calls st)
  | [], _, h => h
  | c :: rest, st, h => by
    rw [debRunFrom_cons]
    exact debRunFrom_inv wait rest _ (debCall_timers_of_inv wait c.1 c.2 h).2

lemma debRun_inv {α : Type} (wait : Nat) (calls : List (Nat × α)) :
    DebInv (debRun wait calls) :=
  debRunFrom_inv wait calls debInit ⟨by simp [debInit], by simp [debInit]⟩

/-- C6: debounce pending-timer invariant — after any sequence of wrapper
invocations at most one scheduled execution of `func` is outstanding, and a
further call leaves exactly its own newly scheduled execution outstanding
(any not-yet-fired prior one is cancelled before the new one is scheduled). -/
theorem debounce_pending_invariant {α : Type} (wait : Nat) (calls : List (Nat × α)) :
    (debRun wait calls).timers.length ≤ 1 ∧
      ∀ t a, ((debCall wait (debRun wait calls) t a).timers.map
        (fun tm => (tm.fireTime, tm.args))) = [(t + wait, a)] := by
  have hinv := debRun_inv wait calls
  refine ⟨hinv.1, fun t a => ?_⟩
  rw [(debCall_timers_of_inv wait t a hinv).1]
  rfl

/-! ### The ScrollAnimations tracker -/

/-- The bounding client rectangle of an element, as returned by
`getBoundingClientRect()`. -/
structure Rect where
  top : ℚ
  bottom : ℚ
  left : ℚ
  right : ℚ

deriving instance DecidableEq for Rect

/-- `isInViewport(element, threshold = 0.1)` from src/main.js, applied to the
element's bounding rectangle and the window dimensions. -/
def isInViewport (rect : Rect) (windowHeight windowWidth : ℚ) (threshold : ℚ := 1/10) : Bool :=
  decide (rect.top ≤ windowHeight * (1 - threshold)) &&
  decide (rect.bottom ≥ windowHeight * threshold) &&
  decide (rect.left ≤ windowWidth) &&
  decide (rect.right ≥ 0)

/-- One entry of `this.elements`: the element reference (an opaque id), the
animation type tag, and the `animated` flag. -/
structure TrackedItem where
  element : Nat
  animationType : String
  animated : Bool

deriving instance DecidableEq for TrackedItem

/-- The `ScrollAnimations` instance state: the tracked-element collection
`this.elements`, the intersection observer's current target set, and the log
of `classList.add('animate')` applications. -/
structure ScrollAnimationsSt where
  elements : List TrackedItem
  observed : List Nat
  animateLog : List Nat

deriving instance DecidableEq for ScrollAnimationsSt

/-- `observer.observe(e)`: the observer's target set gains `e` unless it is
already a target. -/
def observe (obs : List Nat) (e : Nat) : List Nat :=
  if e ∈ obs then obs else obs ++ [e]

/-- `observer.unobserve(e)`: `e` leaves the observer's target set. -/
def unobserve (obs : List Nat) (e : Nat) : List Nat :=
  obs.filter (fun x => x != e)

/-- `addElement(element, animationType = 'fadeInScale')`: a null element is a
no-op; otherwise push a new entry with `animated: false` and observe the
element. -/
def addElement (st : ScrollAnimationsSt) (element : Option Nat)
    (animationType : String := "fadeInScale") : ScrollAnimationsSt :=
  match element with
  | none => st
  | some e =>
    { st with elements := st.elements ++ [⟨e, animationType, false⟩],
              observed := observe st.observed e }

/-- The in-place mutation `elementData.animated = true` performed on the entry
returned by `this.elements.find(...)`: the first entry whose element matches
gets its flag set. -/
def markFirst : List TrackedItem → Nat → List TrackedItem
  | [], _ => []
  | item :: rest, e =>
    if item.element == e then { item with animated := true } :: rest
    else item :: markFirst rest e

/-- `animateElement(element)`: look up the first matching entry; if none or
already animated, do nothing; otherwise flip its flag, apply the `animate`
class, and unobserve the element. -/
def animateElement (st : ScrollAnimationsSt) (element : Nat) : ScrollAnimationsSt :=
  match st.elements.find? (fun item => item.element == element) with
  | none => st
  | some elementData =>
    if elementData.animated then st
    else { st with elements := markFirst st.elements element,
                   animateLog := st.animateLog ++ [element],
                   observed := unobserve st.observed element }

/-- One iteration of the `forEach` in `checkElementsInView`, reading entry `i`
of the (possibly already partially mutated) collection. -/
def pollStep (geom : Nat → Rect) (h w : ℚ) (s : ScrollAnimationsSt) (i : Nat) :
    ScrollAnimationsSt :=
  match s.elements.get? i with
  | none => s
  | some item =>
    if !item.animated && isInViewport (geom item.element) h w then
      animateElement s item.element
    else s

/-- `checkElementsInView()`: the debounced scroll handler's rescan over every
entry of `this.elements`, with the geometry query `geom` and the window
dimensions fixed for the duration of the synchronous run. -/
def checkElementsInView (geom : Nat → Rect) (h w : ℚ) (st : ScrollAnimationsSt) :
    ScrollAnimationsSt :=
  (List.range st.elements.length).foldl (pollStep geom h w) st

/-- The `IntersectionObserver` callback: for each reported entry
`(target, isIntersecting)`, an intersecting target is passed to
`animateElement`. -/
def observerCallback (st : ScrollAnimationsSt) (entries : List (Nat × Bool)) :
    ScrollAnimationsSt :=
  entries.foldl (fun s entry => if entry.2 then animateElement s entry.1 else s) st

/-- An externally triggered tracker event: a registration, an observer
report, or a debounced scroll-poll rescan. -/
inductive TrackerOp where
  | add (element : Option Nat) (animationType : String)
  | observerReport (entries : List (Nat × Bool))
  | poll (geom : Nat → Rect) (h w : ℚ)

/-- Apply one tracker event. -/
def applyOp (st : ScrollAnimationsSt) : TrackerOp → ScrollAnimationsSt
  | .add e ty => addElement st e ty
  | .observerReport entries => observerCallback st entries
  | .poll geom h w => checkElementsInView geom h w st

/-- The state of a fresh `ScrollAnimations` instance. -/
def trackerInit : ScrollAnimationsSt := ⟨[], [], []⟩

/-- Run a sequence of tracker events from a fresh instance. -/
def runOps (ops : List TrackerOp) : ScrollAnimationsSt :=
  ops.foldl applyOp trackerInit

/-- Modelled from the spec: the observer configuration's "10% threshold
semantics re-derived from element geometry" — at least the fraction
`threshold` of the element's bounding-box area lies inside the viewport
rectangle spanning from (0,0) to (windowWidth, windowHeight). -/
def specVisibleRatioAtLeast (rect : Rect) (windowHeight windowWidth threshold : ℚ) : Prop :=
  max 0 (min rect.bottom windowHeight - max rect.top 0)
      * max 0 (min rect.right windowWidth - max rect.left 0)
    ≥ threshold * ((rect.bottom - rect.top) * (rect.right - rect.left))

/-! ### Facts about `markFirst` and `find?` -/

lemma find?_elem_eq {l : List TrackedItem} {e : Nat} {it : TrackedItem}
    (h : l.find? (fun x => x.element == e) = some it) : it.element = e := by
  have := List.find?_some h
  simpa using this

lemma markFirst_of_find?_none {l : List TrackedItem} {e : Nat}
    (h : l.find? (fun x => x.element == e) = none) : markFirst l e = l := by
  induction l with
  | nil => rfl
  | cons x xs ih =>
    rw [List.find?_cons] at h
    cases hx : x.element == e with
    | true => simp [hx] at h
    | false =>
      rw [hx] at h
      simp only [cond_false] at h
      simp only [markFirst, hx]
      simp [ih h]

lemma markFirst_spec {e : Nat} :
    ∀ {l : List TrackedItem} {it : TrackedItem},
      l.find? (fun x => x.element == e) = some it →
      ∃ i, l.get? i = some it
        ∧ (∀ j jt, j < i → l.get? j = some jt → jt.element ≠ e)
        ∧ markFirst l e = l.set i { it with animated := true }
  | [], it, h => by simp at h
  | x :: xs, it, h => by
    rw [List.find?_cons] at h
    cases hx : x.element == e with
    | true =>
      rw [hx] at h
      simp only [cond_true, Option.some.injEq] at h
      subst h
      exact ⟨0, rfl, fun j jt hj => by omega, by simp [markFirst, hx]⟩
    | false =>
      rw [hx] at h
      simp only [cond_false] at h
      obtain ⟨i, hget, hfirst, hmark⟩ := markFirst_spec h
      refine ⟨i + 1, by simpa using hget, ?_, ?_⟩
      · intro j jt hj hgj
        cases j with
        | zero =>
          simp only [List.get?_cons_zero, Option.some.injEq] at hgj
          subst hgj
          simpa using hx
        | succ j' =>
          simp only [List.get?_cons_succ] at hgj
          exact hfirst j' jt (by omega) hgj
      · simp only [markFirst, hx, List.set_cons_succ]
        simp [hmark]

lemma find?_markFirst {e : Nat} :
    ∀ (l : List TrackedItem),
      (markFirst l e).find? (fun x => x.element == e)
        = (l.find? (fun x => x.element == e)).map (fun it => { it with animated := true })
  | [] => rfl
  | x :: xs => by
    cases hx : x.element == e with
    | true => simp [markFirst, hx, List.find?_cons]
    | false =>
      simp only [markFirst, hx, Bool.false_eq_true, if_false]
      rw [List.find?_cons, List.find?_cons, hx]
      simp only [cond_false]
      exact find?_markFirst xs

lemma find?_markFirst_ne {e e' : Nat} (hne : e' ≠ e) :
    ∀ (l : List TrackedItem),
      (markFirst l e).find? (fun x => x.element == e')
        = l.find? (fun x => x.element == e')
  | [] => rfl
  | x :: xs => by
    cases hx : x.element == e with
    | true =>
      have hxe : x.element = e := by simpa using hx
      have hx' : (x.element == e') = false := by
        rw [hxe]
        exact beq_eq_false_iff_ne.mpr (fun hq => hne hq.symm)
      simp only [markFirst, hx, if_true]
      rw [List.find?_cons, List.find?_cons]
      rw [hx']
    | false =>
      simp only [markFirst, hx, Bool.false_eq_true, if_false]
      rw [List.find?_cons, List.find?_cons]
      cases hx' : x.element == e' with
      | true => rfl
      | false => simp only [cond_false]; exact find?_markFirst_ne hne xs

lemma markFirst_map_key {e : Nat} :
    ∀ (l : List TrackedItem),
      (markFirst l e).map (fun it => (it.element, it.animationType))
        = l.map (fun it => (it.element, it.animationType))
  | [] => rfl
  | x :: xs => by
    cases hx : x.element == e with
    | true => simp [markFirst, hx]
    | false =>
      simp only [markFirst, hx, Bool.false_eq_true, if_false, List.map_cons,
        List.cons.injEq, true_and]
      exact markFirst_map_key xs

lemma markFirst_mem {e : Nat} :
    ∀ {l : List TrackedItem} {it' : TrackedItem}, it' ∈ markFirst l e →
      it' ∈ l ∨ ∃ it, it ∈ l ∧ it.element = e ∧ it' = { it with animated := true }
  | [], it', h => by simp [markFirst] at h
  | x :: xs, it', h => by
    cases hx : x.element == e with
    | true =>
      rw [markFirst, hx] at h
      simp only [if_true, List.mem_cons] at h
      rcases h with h | h
      · exact Or.inr ⟨x, List.mem_cons_self _ _, by simpa using hx, h⟩
      · exact Or.inl (List.mem_cons_of_mem _ h)
    | false =>
      rw [markFirst, hx] at h
      simp only [Bool.false_eq_true, if_false, List.mem_cons] at h
      rcases h with h | h
      · exact Or.inl (h ▸ List.mem_cons_self _ _)
      · rcases markFirst_mem h with h' | ⟨it, hmem, heq, hflip⟩
        · exact Or.inl (List.mem_cons_of_mem _ h')
        · exact Or.inr ⟨it, List.mem_cons_of_mem _ hmem, heq, hflip⟩

/-! ### Frame facts about `animateElement` -/

lemma animateElement_of_none {st : ScrollAnimationsSt} {e : Nat}
    (hf : st.elements.find? (fun item => item.element == e) = none) :
    animateElement st e = st := by
  rw [animateElement, hf]

lemma animateElement_of_animated {st : ScrollAnimationsSt} {e : Nat} {it : TrackedItem}
    (hf : st.elements.find? (fun item => item.element == e) = some it)
    (ha : it.animated = true) :
    animateElement st e = st := by
  rw [animateElement, hf]
  simp [ha]

lemma animateElement_of_unanimated {st : ScrollAnimationsSt} {e : Nat} {it : TrackedItem}
    (hf : st.elements.find? (fun item => item.element == e) = some it)
    (ha : it.animated = false) :
    animateElement st e
      = ⟨markFirst st.elements e, unobserve st.observed e, st.animateLog ++ [e]⟩ := by
  rw [animateElement, hf]
  simp [ha]

lemma animateElement_elements_cases (st : ScrollAnimationsSt) (e : Nat) :
    (animateElement st e).elements = st.elements ∨
      ∃ i it, st.elements.get? i = some it ∧ it.element = e ∧ it.animated = false ∧
        (animateElement st e).elements = st.elements.set i { it with animated := true } := by
  cases hf : st.elements.find? (fun item => item.element == e) with
  | none => exact Or.inl (by rw [animateElement_of_none hf])
  | some it =>
    cases ha : it.animated with
    | true => exact Or.inl (by rw [animateElement_of_animated hf ha])
    | false =>
      obtain ⟨i, hget, _, hmark⟩ := markFirst_spec hf
      refine Or.inr ⟨i, it, hget, find?_elem_eq hf, ha, ?_⟩
      rw [animateElement_of_unanimated hf ha]
      exact hmark

lemma animateElement_map_key (st : ScrollAnimationsSt) (e : Nat) :
    (animateElement st e).elements.map (fun it => (it.element, it.animationType))
      = st.elements.map (fun it => (it.element, it.animationType)) := by
  cases hf : st.elements.find? (fun item => item.element == e) with
  | none => rw [animateElement_of_none hf]
  | some it =>
    cases ha : it.animated with
    | true => rw [animateElement_of_animated hf ha]
    | false =>
      rw [animateElement_of_unanimated hf ha]
      exact markFirst_map_key st.elements

/-- C2: reveal monotonicity and idempotence — once the reveal procedure has
set an element's flag, a later `animateElement` on it (from the observer
path or the poll path) leaves all tracker state unchanged, and running the
observer callback on an element already revealed in the same turn changes
nothing: the element is revealed exactly once. -/
theorem reveal_monotone_idempotent (st : ScrollAnimationsSt) (e : Nat) :
    (∀ it, st.elements.find? (fun x => x.element == e) = some it → it.animated = true →
      animateElement st e = st)
    ∧ animateElement (animateElement st e) e = animateElement st e
    ∧ observerCallback (animateElement st e) [(e, true)] = animateElement st e := by
  have hidem : animateElement (animateElement st e) e = animateElement st e := by
    conv_lhs => rw [animateElement]
    cases hf : st.elements.find? (fun item => item.element == e) with
    | none =>
      have hst : animateElement st e = st := by rw [animateElement, hf]
      rw [hst, hf]
    | some it =>
      cases ha : it.animated with
      | true =>
        have hst : animateElement st e = st := by rw [animateElement, hf]; simp [ha]
        rw [hst, hf]
        simp [ha]
      | false =>
        have helts : (animateElement st e).elements = markFirst st.elements e := by
          rw [animateElement, hf]
          simp [ha]
        rw [helts, find?_markFirst, hf]
        simp
  refine ⟨?_, hidem, ?_⟩
  · intro it hf ha
    rw [animateElement, hf]
    simp [ha]
  · simpa [observerCallback] using hidem

/-- Witness for C2 at a concrete revealed entry. -/
theorem reveal_monotone_idempotent_witness :
    ((⟨[⟨5, "fadeInScale", true⟩], [], [5]⟩ : ScrollAnimationsSt).elements.find?
        (fun x => x.element == 5) = some ⟨5, "fadeInScale", true⟩)
    ∧ animateElement ⟨[⟨5, "fadeInScale", true⟩], [], [5]⟩ 5
        = ⟨[⟨5, "fadeInScale", true⟩], [], [5]⟩ := by
  refine ⟨by decide, ?_⟩
  exact (reveal_monotone_idempotent ⟨[⟨5, "fadeInScale", true⟩], [], [5]⟩ 5).1
    ⟨5, "fadeInScale", true⟩ (by decide) (by decide)

/-! ### Degenerate inputs (C9) -/

/-- C9: degenerate inputs never raise — `addElement` with a null element
reference is a silent no-op leaving all tracker state unchanged, and
`animateElement` on an element reference that was never registered is
likewise a silent no-op; both are total functions. -/
theorem degenerate_inputs_noop (st : ScrollAnimationsSt) (ty : String) (e : Nat) :
    addElement st none ty = st
    ∧ ((∀ it ∈ st.elements, it.element ≠ e) → animateElement st e = st) := by
  refine ⟨rfl, fun hall => ?_⟩
  apply animateElement_of_none
  rw [List.find?_eq_none]
  intro x hx
  simpa using hall x hx

/-- Witness for C9: a null registration and a reveal of the unregistered
element 0 both leave a concrete tracker state unchanged. -/
theorem degenerate_inputs_noop_witness :
    addElement ⟨[⟨1, "fadeInScale", false⟩], [1], []⟩ none "fadeInScale"
        = ⟨[⟨1, "fadeInScale", false⟩], [1], []⟩
    ∧ animateElement ⟨[⟨1, "fadeInScale", false⟩], [1], []⟩ 0
        = ⟨[⟨1, "fadeInScale", false⟩], [1], []⟩ :=
  ⟨(degenerate_inputs_noop ⟨[⟨1, "fadeInScale", false⟩], [1], []⟩ "fadeInScale" 0).1,
   (degenerate_inputs_noop ⟨[⟨1, "fadeInScale", false⟩], [1], []⟩ "fadeInScale" 0).2 (by decide)⟩

/-! ### Unregistration on reveal (C3) -/

lemma countP_markFirst {e : Nat} :
    ∀ {l : List TrackedItem} {it : TrackedItem},
      l.find? (fun x => x.element == e) = some it → it.animated = false →
      (markFirst l e).countP (fun x => !x.animated) + 1 = l.countP (fun x => !x.animated)
  | [], it, hf, _ => by simp at hf
  | x :: xs, it, hf, ha => by
    rw [List.find?_cons] at hf
    cases hx : x.element == e with
    | true =>
      rw [hx] at hf
      simp only [cond_true, Option.some.injEq] at hf
      subst hf
      rw [markFirst, hx]
      simp [List.countP_cons, ha]
    | false =>
      rw [hx] at hf
      simp only [cond_false] at hf
      rw [markFirst, hx]
      simp only [Bool.false_eq_true, if_false, List.countP_cons]
      have := countP_markFirst hf ha
      omega

lemma markFirst_map_element (l : List TrackedItem) (e : Nat) :
    (markFirst l e).map (fun it => it.element) = l.map (fun it => it.element) := by
  have h := markFirst_map_key (e := e) l
  have h2 := congrArg (List.map Prod.fst) h
  simpa [List.map_map, Function.comp] using h2

lemma not_mem_unobserve (obs : List Nat) (e : Nat) : e ∉ unobserve obs e := by
  intro h
  rcases List.mem_filter.1 h with ⟨_, hne⟩
  simp at hne

/-- C3 counterexample: the claim says a revealed element "no longer appears
in the set of elements scanned by subsequent scroll-poll rescans (it is
removed from the rescan collection, not merely skipped via a flag)".  In the
code the entry stays in `this.elements`, which `checkElementsInView` rescans
in full: after revealing element 0 the collection still contains it. -/
theorem reveal_keeps_entry_in_collection :
    (animateElement ⟨[⟨0, "fadeInScale", false⟩], [0], []⟩ 0).elements.map
        (fun it => it.element) = [0]
    ∧ (animateElement ⟨[⟨0, "fadeInScale", false⟩], [0], []⟩ 0).elements.length = 1 := by
  decide

/-- C3 (amended): after the reveal procedure runs on a registered,
not-yet-revealed element, the element remains in the tracked collection (it
is skipped by later rescans only via its `animated` flag), the number of
unrevealed entries decreases by exactly one, and the element is removed from
the observer's target set. -/
theorem reveal_unregistration_amended (st : ScrollAnimationsSt) (e : Nat) (it : TrackedItem)
    (hf : st.elements.find? (fun x => x.element == e) = some it)
    (ha : it.animated = false) :
    (animateElement st e).elements.countP (fun x => !x.animated) + 1
        = st.elements.countP (fun x => !x.animated)
    ∧ e ∈ (animateElement st e).elements.map (fun x => x.element)
    ∧ e ∉ (animateElement st e).observed := by
  rw [animateElement_of_unanimated hf ha]
  refine ⟨countP_markFirst hf ha, ?_, not_mem_unobserve st.observed e⟩
  rw [markFirst_map_element]
  have hmem : it ∈ st.elements := List.mem_of_find?_eq_some hf
  have : it.element ∈ st.elements.map (fun x => x.element) := List.mem_map_of_mem _ hmem
  rwa [find?_elem_eq hf] at this

/-- Witness for C3's amended statement at a concrete one-element tracker. -/
theorem reveal_unregistration_amended_witness :
    (animateElement ⟨[⟨0, "fadeInScale", false⟩], [0], []⟩ 0).elements.countP
        (fun x => !x.animated) + 1 = 1
    ∧ 0 ∈ (animateElement ⟨[⟨0, "fadeInScale", false⟩], [0], []⟩ 0).elements.map
        (fun x => x.element)
    ∧ 0 ∉ (animateElement ⟨[⟨0, "fadeInScale", false⟩], [0], []⟩ 0).observed :=
  reveal_unregistration_amended ⟨[⟨0, "fadeInScale", false⟩], [0], []⟩ 0
    ⟨0, "fadeInScale", false⟩ (by decide) (by decide)

/-! ### The tracked-collection frame condition (C8) -/

lemma pollStep_of_none {geom : Nat → Rect} {h w : ℚ} {s : ScrollAnimationsSt} {i : Nat}
    (hget : s.elements.get? i = none) : pollStep geom h w s i = s := by
  rw [pollStep, hget]

lemma pollStep_of_some {geom : Nat → Rect} {h w : ℚ} {s : ScrollAnimationsSt} {i : Nat}
    {item : TrackedItem} (hget : s.elements.get? i = some item) :
    pollStep geom h w s i
      = if !item.animated && isInViewport (geom item.element) h w then
          animateElement s item.element
        else s := by
  rw [pollStep, hget]

lemma pollStep_map_key (geom : Nat → Rect) (h w : ℚ) (s : ScrollAnimationsSt) (i : Nat) :
    (pollStep geom h w s i).elements.map (fun it => (it.element, it.animationType))
      = s.elements.map (fun it => (it.element, it.animationType)) := by
  cases hget : s.elements.get? i with
  | none => rw [pollStep_of_none hget]
  | some item =>
    rw [pollStep_of_some hget]
    cases hc : !item.animated && isInViewport (geom item.element) h w with
    | true => simpa using animateElement_map_key s item.element
    | false => simp

lemma foldl_pollStep_map_key (geom : Nat → Rect) (h w : ℚ) :
    ∀ (idxs : List Nat) (s : ScrollAnimationsSt),
      ((idxs.foldl (pollStep geom h w) s).elements.map
          (fun it => (it.element, it.animationType)))
        = s.elements.map (fun it => (it.element, it.animationType))
  | [], _ => rfl
  | i :: rest, s => by
    rw [List.foldl_cons]
    rw [foldl_pollStep_map_key geom h w rest (pollStep geom h w s i)]
    exact pollStep_map_key geom h w s i

lemma checkElementsInView_map_key (geom : Nat → Rect) (h w : ℚ) (st : ScrollAnimationsSt) :
    (checkElementsInView geom h w st).elements.map (fun it => (it.element, it.animationType))
      = st.elements.map (fun it => (it.element, it.animationType)) :=
  foldl_pollStep_map_key geom h w (List.range st.elements.length) st

/-- C8: tracked-collection frame condition — `addElement` appends exactly one
new entry with `animated = false` leaving existing entries unchanged; the
reveal procedure either leaves the collection unchanged or flips the
`animated` flag of exactly one entry in place, all other fields and entries
untouched; the scroll-poll rescan adds and removes nothing (every entry's
identity and animation type is preserved). -/
theorem tracked_collection_frame (st : ScrollAnimationsSt) (e : Nat) (ty : String)
    (geom : Nat → Rect) (h w : ℚ) :
    (addElement st (some e) ty).elements = st.elements ++ [⟨e, ty, false⟩]
    ∧ ((animateElement st e).elements = st.elements ∨
        ∃ i it, st.elements.get? i = some it ∧ it.element = e ∧ it.animated = false ∧
          (animateElement st e).elements = st.elements.set i { it with animated := true })
    ∧ (checkElementsInView geom h w st).elements.map (fun it => (it.element, it.animationType))
        = st.elements.map (fun it => (it.element, it.animationType)) :=
  ⟨rfl, animateElement_elements_cases st e, checkElementsInView_map_key geom h w st⟩

/-! ### The poll path characterized on duplicate-free trackers (C4) -/

lemma set_of_get?_eq {γ : Type} : ∀ (l : List γ) (i : Nat) (a : γ),
    l.get? i = some a → l.set i a = l
  | [], _, _, hg => by simp at hg
  | x :: xs, 0, a, hg => by
    simp only [List.get?_cons_zero, Option.some.injEq] at hg
    simp [hg]
  | x :: xs, i + 1, a, hg => by
    simp only [List.get?_cons_succ] at hg
    simp [set_of_get?_eq xs i a hg]

lemma map_element_set {l : List TrackedItem} {i : Nat} {it : TrackedItem}
    (hg : l.get? i = some it) (b : Bool) :
    (l.set i { it with animated := b }).map (fun x => x.element)
      = l.map (fun x => x.element) := by
  rw [List.map_set]
  apply set_of_get?_eq
  rw [List.get?_map, hg]
  rfl

lemma find?_nodup_get :
    ∀ {l : List TrackedItem} {i : Nat} {it : TrackedItem},
      (l.map (fun x => x.element)).Nodup → l.get? i = some it →
      l.find? (fun x => x.element == it.element) = some it
  | [], _, _, _, hg => by simp at hg
  | x :: xs, 0, it, _, hg => by
    simp only [List.get?_cons_zero, Option.some.injEq] at hg
    subst hg
    rw [List.find?_cons]
    simp
  | x :: xs, i + 1, it, hnd, hg => by
    simp only [List.get?_cons_succ] at hg
    simp only [List.map_cons, List.nodup_cons] at hnd
    have hmem : it ∈ xs := List.get?_mem hg
    have hne : x.element ≠ it.element := by
      intro hcc
      exact hnd.1 (hcc ▸ List.mem_map_of_mem _ hmem)
    rw [List.find?_cons]
    have hx : (x.element == it.element) = false := beq_eq_false_iff_ne.mpr hne
    rw [hx]
    simp only [cond_false]
    exact find?_nodup_get hnd.2 hg

lemma animateElement_set_of_nodup {st : ScrollAnimationsSt} {i : Nat} {it : TrackedItem}
    (hnd : (st.elements.map (fun x => x.element)).Nodup)
    (hg : st.elements.get? i = some it) (ha : it.animated = false) :
    animateElement st it.element
      = ⟨st.elements.set i { it with animated := true },
         unobserve st.observed it.element, st.animateLog ++ [it.element]⟩ := by
  have hf := find?_nodup_get hnd hg
  rw [animateElement_of_unanimated hf ha]
  obtain ⟨i', hget', _, hmark⟩ := markFirst_spec hf
  have hlt : i < st.elements.length := (List.get?_eq_some.1 hg).1
  have hlt' : i' < st.elements.length := (List.get?_eq_some.1 hget').1
  have hii : i = i' := by
    have hmap : (st.elements.map (fun x => x.element)).get? i
        = (st.elements.map (fun x => x.element)).get? i' := by
      rw [List.get?_map, List.get?_map, hg, hget']
    exact List.get?_inj (by simpa using hlt) hnd hmap
  rw [hmark, ← hii]

lemma foldl_pollStep_get (geom : Nat → Rect) (h w : ℚ) :
    ∀ (idxs : List Nat) (s : ScrollAnimationsSt), idxs.Nodup →
      (s.elements.map (fun x => x.element)).Nodup →
      ∀ k it, s.elements.get? k = some it →
      (idxs.foldl (pollStep geom h w) s).elements.get? k =
        some (if k ∈ idxs ∧ it.animated = false ∧ isInViewport (geom it.element) h w = true
              then { it with animated := true } else it)
  | [], s, _, _, k, it, hg => by
    simp only [List.foldl_nil, List.not_mem_nil, false_and, if_false]
    exact hg
  | i :: rest, s, hndi, hnd, k, it, hg => by
    rw [List.foldl_cons]
    simp only [List.nodup_cons] at hndi
    cases hgi : s.elements.get? i with
    | none =>
      have hki : k ≠ i := fun hc => by rw [hc, hgi] at hg; exact Option.noConfusion hg
      rw [pollStep_of_none hgi]
      rw [foldl_pollStep_get geom h w rest s hndi.2 hnd k it hg]
      simp [List.mem_cons, hki]
    | some item =>
      rw [pollStep_of_some hgi]
      cases hcond : !item.animated && isInViewport (geom item.element) h w with
      | false =>
        rw [if_neg (by simp [hcond])]
        rw [foldl_pollStep_get geom h w rest s hndi.2 hnd k it hg]
        by_cases hki : k = i
        · subst hki
          have hit : it = item := by
            rw [hg] at hgi
            exact Option.some.inj hgi
          subst hit
          have hnc : ¬ (it.animated = false ∧ isInViewport (geom it.element) h w = true) := by
            intro ⟨ha, hv⟩
            rw [ha, hv] at hcond
            simp at hcond
          rw [if_neg (fun hc => hnc hc.2), if_neg (fun hc => hnc hc.2)]
        · simp [List.mem_cons, hki]
      | true =>
        rw [if_pos (rfl : (true : Bool) = true)]
        rw [Bool.and_eq_true, Bool.not_eq_true'] at hcond
        obtain ⟨haitem, hvitem⟩ := hcond
        rw [animateElement_set_of_nodup hnd hgi haitem]
        have hlen : i < s.elements.length := (List.get?_eq_some.1 hgi).1
        have hnd' : (((s.elements.set i { item with animated := true }).map
            (fun x => x.element))).Nodup := by
          rw [map_element_set hgi]
          exact hnd
        by_cases hki : k = i
        · subst hki
          have hit : it = item := by
            rw [hg] at hgi
            exact Option.some.inj hgi
          subst hit
          have hg' : (s.elements.set k { it with animated := true }).get? k
              = some { it with animated := true } := by
            rw [List.get?_set_eq_of_lt _ hlen]
          rw [foldl_pollStep_get geom h w rest _ hndi.2 hnd' k _ hg']
          rw [if_neg (by intro hc; simp at hc), if_pos ⟨List.mem_cons_self _ _, haitem, hvitem⟩]
        · have hg' : (s.elements.set i { item with animated := true }).get? k
              = some it := by
            rw [List.get?_set_ne _ _ (fun hc => hki hc.symm)]
            exact hg
          rw [foldl_pollStep_get geom h w rest _ hndi.2 hnd' k it hg']
          simp [List.mem_cons, hki]

/-- C4 counterexample: the poll path does not implement "revealed iff at
least 10% of the element is visible".  A 10000-tall box with only 900 of it
inside a 1000-tall viewport (9% visible) passes `isInViewport` and is
revealed by `checkElementsInView`, though its visible area ratio is below
the 10% threshold of the observer configuration. -/
theorem poll_reveals_under_ten_percent_visible :
    ((checkElementsInView (fun _ => ⟨100, 10100, 0, 100⟩) 1000 1000
        ⟨[⟨0, "fadeInScale", false⟩], [0], []⟩).elements.map (fun it => it.animated) = [true])
    ∧ ¬ specVisibleRatioAtLeast ⟨100, 10100, 0, 100⟩ 1000 1000 (1/10) := by
  constructor
  · have hv : isInViewport ⟨100, 10100, 0, 100⟩ 1000 1000 ((10 : ℚ)⁻¹) = true := by
      simp only [isInViewport, Bool.and_eq_true, decide_eq_true_eq]
      norm_num
    simp [checkElementsInView, List.range_succ, pollStep, hv, animateElement, markFirst,
      unobserve]
  · intro hcon
    simp only [specVisibleRatioAtLeast] at hcon
    norm_num [min_def, max_def] at hcon

/-- C4 (amended): the scroll-poll fallback rescans every tracked entry and,
on a tracker whose element references are pairwise distinct, reveals exactly
those unrevealed entries whose bounding box passes the code's
`isInViewport` test — `top ≤ 0.9·windowHeight`, `bottom ≥ 0.1·windowHeight`,
`left ≤ windowWidth`, `right ≥ 0` — re-derived from element geometry; this
differs from the "at least 10% of the element visible" reading of the
observer threshold. -/
theorem poll_reveal_characterization (geom : Nat → Rect) (h w : ℚ) (st : ScrollAnimationsSt)
    (hnd : (st.elements.map (fun x => x.element)).Nodup) (k : Nat) (it : TrackedItem)
    (hg : st.elements.get? k = some it) :
    (checkElementsInView geom h w st).elements.get? k
      = some { it with animated := it.animated || isInViewport (geom it.element) h w } := by
  rw [checkElementsInView,
    foldl_pollStep_get geom h w (List.range st.elements.length) st (List.nodup_range _) hnd
      k it hg]
  have hk : k ∈ List.range st.elements.length :=
    List.mem_range.2 (List.get?_eq_some.1 hg).1
  obtain ⟨el, ty, an⟩ := it
  cases an with
  | true =>
    rw [if_neg (fun hc => by simpa using hc.2.1)]
    simp
  | false =>
    cases hv : isInViewport (geom el) h w with
    | true =>
      rw [if_pos ⟨hk, rfl, rfl⟩]
      simp
    | false =>
      rw [if_neg (fun hc => by simpa using hc.2.2)]
      simp

/-- Witness for C4's amended statement: a two-element tracker in which only
element 0's box passes the viewport test; after one poll, entry 0 is
revealed. -/
theorem poll_reveal_characterization_witness :
    ((⟨[⟨0, "fadeInScale", false⟩, ⟨7, "fadeInScale", false⟩], [0, 7], []⟩ :
        ScrollAnimationsSt).elements.map (fun x => x.element)).Nodup
    ∧ (checkElementsInView (fun e => if e = 0 then ⟨0, 100, 0, 100⟩ else ⟨5000, 5100, 0, 100⟩)
        1000 1000
        ⟨[⟨0, "fadeInScale", false⟩, ⟨7, "fadeInScale", false⟩], [0, 7], []⟩).elements.get? 0
      = some ⟨0, "fadeInScale", true⟩ := by
  refine ⟨by decide, ?_⟩
  have h := poll_reveal_characterization
    (fun e => if e = 0 then ⟨0, 100, 0, 100⟩ else ⟨5000, 5100, 0, 100⟩) 1000 1000
    ⟨[⟨0, "fadeInScale", false⟩, ⟨7, "fadeInScale", false⟩], [0, 7], []⟩ (by decide) 0
    ⟨0, "fadeInScale", false⟩ rfl
  rw [h]
  have hv : isInViewport ⟨0, 100, 0, 100⟩ 1000 1000 ((10 : ℚ)⁻¹) = true := by
    simp only [isInViewport, Bool.and_eq_true, decide_eq_true_eq]
    norm_num
  simp [hv]

/-! ### No premature reveal (C5) -/

lemma animateElement_pres (e0 : Nat) (s : ScrollAnimationsSt) (e' : Nat) (hne : e' ≠ e0)
    (hP : ∀ it ∈ s.elements, it.element = e0 → it.animated = false) :
    ∀ it ∈ (animateElement s e').elements, it.element = e0 → it.animated = false := by
  cases hf : s.elements.find? (fun item => item.element == e') with
  | none => rw [animateElement_of_none hf]; exact hP
  | some fd =>
    cases ha : fd.animated with
    | true => rw [animateElement_of_animated hf ha]; exact hP
    | false =>
      rw [animateElement_of_unanimated hf ha]
      intro it hmem helem
      rcases markFirst_mem hmem with hin | ⟨it0, hin0, helem0, hflip⟩
      · exact hP it hin helem
      · exfalso
        rw [hflip] at helem
        exact hne (by rw [← helem0]; exact helem)

lemma pollStep_pres (geom : Nat → Rect) (h w : ℚ) (e0 : Nat)
    (hv : isInViewport (geom e0) h w = false) (s : ScrollAnimationsSt) (i : Nat)
    (hP : ∀ it ∈ s.elements, it.element = e0 → it.animated = false) :
    ∀ it ∈ (pollStep geom h w s i).elements, it.element = e0 → it.animated = false := by
  cases hgi : s.elements.get? i with
  | none => rw [pollStep_of_none hgi]; exact hP
  | some item =>
    rw [pollStep_of_some hgi]
    cases hc : !item.animated && isInViewport (geom item.element) h w with
    | false =>
      rw [if_neg (by simp : ¬ ((false : Bool) = true))]
      exact hP
    | true =>
      rw [if_pos (rfl : (true : Bool) = true)]
      have hne : item.element ≠ e0 := by
        intro hcc
        rw [Bool.and_eq_true] at hc
        rw [hcc, hv] at hc
        simp at hc
      exact animateElement_pres e0 s item.element hne hP

lemma foldl_pollStep_pres (geom : Nat → Rect) (h w : ℚ) (e0 : Nat)
    (hv : isInViewport (geom e0) h w = false) :
    ∀ (idxs : List Nat) (s : ScrollAnimationsSt),
      (∀ it ∈ s.elements, it.element = e0 → it.animated = false) →
      ∀ it ∈ (idxs.foldl (pollStep geom h w) s).elements, it.element = e0 → it.animated = false
  | [], _, hP => hP
  | i :: rest, s, hP => by
    rw [List.foldl_cons]
    exact foldl_pollStep_pres geom h w e0 hv rest _ (pollStep_pres geom h w e0 hv s i hP)

lemma iterate_poll_pres (geom : Nat → Rect) (h w : ℚ) (e0 : Nat)
    (hv : isInViewport (geom e0) h w = false) :
    ∀ (n : Nat) (st : ScrollAnimationsSt),
      (∀ it ∈ st.elements, it.element = e0 → it.animated = false) →
      ∀ it ∈ ((checkElementsInView geom h w)^[n] st).elements,
        it.element = e0 → it.animated = false
  | 0, _, hP => by simpa using hP
  | n + 1, st, hP => by
    rw [Function.iterate_succ_apply]
    exact iterate_poll_pres geom h w e0 hv n _
      (foldl_pollStep_pres geom h w e0 hv (List.range st.elements.length) st hP)

lemma countP_zero_iff (l : List TrackedItem) (e : Nat) :
    l.countP (fun it => it.element == e && it.animated) = 0 ↔
      ∀ it ∈ l, it.element = e → it.animated = false := by
  rw [List.countP_eq_zero]
  constructor
  · intro hh it hmem helem
    have h2 := hh it hmem
    simp only [Bool.and_eq_true, beq_iff_eq, not_and] at h2
    have h3 := h2 helem
    simpa using h3
  · intro hh it hmem
    simp only [Bool.and_eq_true, beq_iff_eq, not_and]
    intro helem
    simp [hh it hmem helem]

/-- C5: no premature reveal — an element whose bounding box fails the
configured 10% viewport threshold test is never revealed by any number of
scroll-poll runs; in particular a box lying entirely below
`windowHeight * 1.1` (with a positive window height) fails the test. -/
theorem no_premature_reveal :
    (∀ (geom : Nat → Rect) (h w : ℚ) (e : Nat) (st : ScrollAnimationsSt) (n : Nat),
      isInViewport (geom e) h w = false →
      st.elements.countP (fun it => it.element == e && it.animated) = 0 →
      ((checkElementsInView geom h w)^[n] st).elements.countP
        (fun it => it.element == e && it.animated) = 0)
    ∧ (∀ (rect : Rect) (h w : ℚ), 0 < h → h * (11/10) ≤ rect.top →
        isInViewport rect h w = false) := by
  constructor
  · intro geom h w e st n hv hz
    rw [countP_zero_iff] at hz ⊢
    exact iterate_poll_pres geom h w e hv n st hz
  · intro rect h w hh htop
    have hfalse : ¬ (rect.top ≤ h * (1 - 1/10)) := by
      intro hcon
      nlinarith
    rw [isInViewport, decide_eq_false hfalse]
    simp

/-- Witness for C5: a box from y=1200 to y=1300 under a 1000-tall viewport
stays unrevealed after two poll runs. -/
theorem no_premature_reveal_witness :
    isInViewport ⟨1200, 1300, 0, 100⟩ 1000 1000 = false
    ∧ ((checkElementsInView (fun _ => ⟨1200, 1300, 0, 100⟩) 1000 1000)^[2]
        ⟨[⟨0, "fadeInScale", false⟩], [0], []⟩).elements.countP
        (fun it => it.element == 0 && it.animated) = 0 := by
  have hv : isInViewport ⟨1200, 1300, 0, 100⟩ 1000 1000 = false :=
    no_premature_reveal.2 ⟨1200, 1300, 0, 100⟩ 1000 1000 (by norm_num) (by norm_num)
  exact ⟨hv, no_premature_reveal.1 (fun _ => ⟨1200, 1300, 0, 100⟩) 1000 1000 0
    ⟨[⟨0, "fadeInScale", false⟩], [0], []⟩ 2 hv (by decide)⟩

/-! ### Duplicate registration (C10) -/

/-- The animated flag of the first entry matching `e` (`false` when there is
none): the value the reveal procedure consults. -/
def revealedFlag (st : ScrollAnimationsSt) (e : Nat) : Bool :=
  ((st.elements.find? (fun x => x.element == e)).map (fun it => it.animated)).getD false

/-- The `animate` class has been applied to an element exactly when its
first matching entry is animated, and then exactly once. -/
def LogInv (st : ScrollAnimationsSt) : Prop :=
  ∀ e, st.animateLog.count e = if revealedFlag st e then 1 else 0

/-- Entries after the first one for the same element reference never have
their animated flag set. -/
def DupInv (st : ScrollAnimationsSt) : Prop :=
  ∀ i j iti itj, i < j → st.elements.get? i = some iti → st.elements.get? j = some itj →
    iti.element = itj.element → itj.animated = false

lemma revealedFlag_addElement (st : ScrollAnimationsSt) (e' : Nat) (ty : String) (e : Nat) :
    revealedFlag (addElement st (some e') ty) e = revealedFlag st e := by
  simp only [revealedFlag, addElement, List.find?_append]
  cases hf : st.elements.find? (fun x => x.element == e) with
  | some it => rfl
  | none =>
    simp only [Option.none_or]
    cases hx : ((⟨e', ty, false⟩ : TrackedItem).element == e) with
    | true => simp [List.find?_cons, hx]
    | false => simp [List.find?_cons, hx]

lemma logInv_addElement {st : ScrollAnimationsSt} (el : Option Nat) (ty : String)
    (h : LogInv st) : LogInv (addElement st el ty) := by
  cases el with
  | none => exact h
  | some e' =>
    intro e
    rw [revealedFlag_addElement]
    exact h e

lemma dupInv_addElement {st : ScrollAnimationsSt} (el : Option Nat) (ty : String)
    (h : DupInv st) : DupInv (addElement st el ty) := by
  cases el with
  | none => exact h
  | some e' =>
    intro i j iti itj hij hgi hgj helem
    have hjlen : j < st.elements.length + 1 := by
      have := (List.get?_eq_some.1 hgj).1
      simpa [addElement] using this
    rcases Nat.lt_or_ge j st.elements.length with hjl | hjg
    · have hil : i < st.elements.length := lt_trans hij hjl
      rw [show (addElement st (some e') ty).elements = st.elements ++ [⟨e', ty, false⟩] from rfl,
        List.get?_append hjl] at hgj
      rw [show (addElement st (some e') ty).elements = st.elements ++ [⟨e', ty, false⟩] from rfl,
        List.get?_append hil] at hgi
      exact h i j iti itj hij hgi hgj helem
    · have hje : j = st.elements.length := by omega
      rw [show (addElement st (some e') ty).elements = st.elements ++ [⟨e', ty, false⟩] from rfl,
        hje, List.get?_concat_length] at hgj
      have : itj = ⟨e', ty, false⟩ := (Option.some.inj hgj).symm
      rw [this]

lemma logInv_animateElement {st : ScrollAnimationsSt} (e' : Nat)
    (h : LogInv st) : LogInv (animateElement st e') := by
  cases hf : st.elements.find? (fun item => item.element == e') with
  | none => rw [animateElement_of_none hf]; exact h
  | some fd =>
    cases ha : fd.animated with
    | true => rw [animateElement_of_animated hf ha]; exact h
    | false =>
      rw [animateElement_of_unanimated hf ha]
      intro e
      by_cases he : e = e'
      · subst he
        have hflag : revealedFlag st e = false := by
          simp [revealedFlag, hf, ha]
        have hcount : st.animateLog.count e = 0 := by
          rw [h e, hflag]
          rfl
        have hflag' : revealedFlag ⟨markFirst st.elements e, unobserve st.observed e,
            st.animateLog ++ [e]⟩ e = true := by
          simp only [revealedFlag, find?_markFirst, hf]
          rfl
        rw [hflag', if_pos rfl]
        simp [hcount]
      · have hflag' : revealedFlag ⟨markFirst st.elements e', unobserve st.observed e',
            st.animateLog ++ [e']⟩ e = revealedFlag st e := by
          simp only [revealedFlag]
          rw [find?_markFirst_ne he]
        rw [hflag']
        rw [show (⟨markFirst st.elements e', unobserve st.observed e',
            st.animateLog ++ [e']⟩ : ScrollAnimationsSt).animateLog
          = st.animateLog ++ [e'] from rfl]
        rw [List.count_append, List.count_singleton]
        have : ((e' : Nat) == e) = false := beq_eq_false_iff_ne.mpr (fun hq => he hq.symm)
        rw [this, if_neg (by simp)]
        simp [h e]

lemma dupInv_animateElement {st : ScrollAnimationsSt} (e' : Nat)
    (h : DupInv st) : DupInv (animateElement st e') := by
  cases hf : st.elements.find? (fun item => item.element == e') with
  | none => rw [animateElement_of_none hf]; exact h
  | some fd =>
    cases ha : fd.animated with
    | true => rw [animateElement_of_animated hf ha]; exact h
    | false =>
      obtain ⟨fi, hgf, hfirst, hmark⟩ := markFirst_spec hf
      have helts : (animateElement st e').elements = st.elements.set fi { fd with animated := true } := by
        rw [animateElement_of_unanimated hf ha]
        exact hmark
      have hfe : fd.element = e' := find?_elem_eq hf
      have hflen : fi < st.elements.length := (List.get?_eq_some.1 hgf).1
      intro i j iti itj hij hgi hgj helem
      rw [helts] at hgi hgj
      by_cases hjf : j = fi
      · subst hjf
        rw [List.get?_set_eq_of_lt _ hflen] at hgj
        have hitj : itj = { fd with animated := true } := (Option.some.inj hgj).symm
        exfalso
        have hine : i ≠ j := Nat.ne_of_lt hij
        rw [List.get?_set_ne _ _ (fun hc => hine hc.symm)] at hgi
        apply hfirst i iti hij hgi
        rw [helem, hitj, hfe]
      · rw [List.get?_set_ne _ _ (fun hc => hjf hc.symm)] at hgj
        by_cases hif : i = fi
        · subst hif
          rw [List.get?_set_eq_of_lt _ hflen] at hgi
          have hiti : iti = { fd with animated := true } := (Option.some.inj hgi).symm
          refine h i j fd itj hij hgf hgj ?_
          rw [← helem, hiti]
        · rw [List.get?_set_ne _ _ (fun hc => hif hc.symm)] at hgi
          exact h i j iti itj hij hgi hgj helem

lemma invs_observerCallback {st : ScrollAnimationsSt} :
    ∀ (entries : List (Nat × Bool)), LogInv st → DupInv st →
      LogInv (observerCallback st entries) ∧ DupInv (observerCallback st entries) := by
  intro entries
  induction entries generalizing st with
  | nil => intro hl hd; exact ⟨hl, hd⟩
  | cons entry rest ih =>
    intro hl hd
    rw [show observerCallback st (entry :: rest)
      = observerCallback (if entry.2 then animateElement st entry.1 else st) rest from rfl]
    cases hb : entry.2 with
    | true =>
      rw [if_pos (rfl : (true : Bool) = true)]
      exact ih (logInv_animateElement entry.1 hl) (dupInv_animateElement entry.1 hd)
    | false =>
      rw [if_neg (by simp : ¬ ((false : Bool) = true))]
      exact ih hl hd

lemma invs_pollStep {st : ScrollAnimationsSt} (geom : Nat → Rect) (h w : ℚ) (i : Nat)
    (hl : LogInv st) (hd : DupInv st) :
    LogInv (pollStep geom h w st i) ∧ DupInv (pollStep geom h w st i) := by
  cases hgi : st.elements.get? i with
  | none => rw [pollStep_of_none hgi]; exact ⟨hl, hd⟩
  | some item =>
    rw [pollStep_of_some hgi]
    cases hc : !item.animated && isInViewport (geom item.element) h w with
    | true =>
      rw [if_pos (rfl : (true : Bool) = true)]
      exact ⟨logInv_animateElement item.element hl, dupInv_animateElement item.element hd⟩
    | false =>
      rw [if_neg (by simp : ¬ ((false : Bool) = true))]
      exact ⟨hl, hd⟩

lemma invs_foldl_pollStep (geom : Nat → Rect) (h w : ℚ) :
    ∀ (idxs : List Nat) (st : ScrollAnimationsSt), LogInv st → DupInv st →
      LogInv (idxs.foldl (pollStep geom h w) st) ∧ DupInv (idxs.foldl (pollStep geom h w) st)
  | [], _, hl, hd => ⟨hl, hd⟩
  | i :: rest, st, hl, hd => by
    rw [List.foldl_cons]
    obtain ⟨hl', hd'⟩ := invs_pollStep geom h w i hl hd
    exact invs_foldl_pollStep geom h w rest _ hl' hd'

lemma invs_applyOp {st : ScrollAnimationsSt} (op : TrackerOp) (hl : LogInv st) (hd : DupInv st) :
    LogInv (applyOp st op) ∧ DupInv (applyOp st op) := by
  cases op with
  | add el ty => exact ⟨logInv_addElement el ty hl, dupInv_addElement el ty hd⟩
  | observerReport entries => exact invs_observerCallback entries hl hd
  | poll geom h w => exact invs_foldl_pollStep geom h w _ st hl hd

lemma invs_runOps :
    ∀ (ops : List TrackerOp) (st : ScrollAnimationsSt), LogInv st → DupInv st →
      LogInv (ops.foldl applyOp st) ∧ DupInv (ops.foldl applyOp st)
  | [], _, hl, hd => ⟨hl, hd⟩
  | op :: rest, st, hl, hd => by
    rw [List.foldl_cons]
    obtain ⟨hl', hd'⟩ := invs_applyOp op hl hd
    exact invs_runOps rest _ hl' hd'

lemma invs_init : LogInv trackerInit ∧ DupInv trackerInit := by
  constructor
  · intro e
    simp [trackerInit, revealedFlag]
  · intro i j iti itj _ hgi _ _
    simp [trackerInit] at hgi

/-- C10: duplicate registration — registering the same element reference
twice leaves two entries in the tracked collection; over any sequence of
tracker events starting from a fresh instance, the `animate` class is
applied at most once per element reference, and every entry after the first
one for the same reference keeps `animated = false` forever (the reveal
procedure only ever mutates the first matching entry). -/
theorem duplicate_registration (ops : List TrackerOp) (e : Nat) :
    (runOps ops).animateLog.count e ≤ 1
    ∧ (∀ i j iti itj, i < j → (runOps ops).elements.get? i = some iti →
        (runOps ops).elements.get? j = some itj → iti.element = itj.element →
        itj.animated = false)
    ∧ (∀ (st : ScrollAnimationsSt) (ty ty' : String),
        ((addElement (addElement st (some e) ty) (some e) ty').elements.map
          (fun x => x.element)).count e
        = (st.elements.map (fun x => x.element)).count e + 2) := by
  obtain ⟨hl, hd⟩ := invs_runOps ops trackerInit invs_init.1 invs_init.2
  refine ⟨?_, hd, ?_⟩
  · show (ops.foldl applyOp trackerInit).animateLog.count e ≤ 1
    rw [hl e]
    split <;> omega
  · intro st ty ty'
    show ((st.elements ++ [(⟨e, ty, false⟩ : TrackedItem)]
        ++ [(⟨e, ty', false⟩ : TrackedItem)]).map (fun x => x.element)).count e
      = (st.elements.map (fun x => x.element)).count e + 2
    simp [List.count_append]

/-- Witness for C10: add element 0 twice, then the observer reports it
intersecting; the class is applied once, the second entry stays unanimated,
and the collection holds two entries for 0. -/
theorem duplicate_registration_witness :
    (runOps [TrackerOp.add (some 0) "fadeInScale", TrackerOp.add (some 0) "fadeInScale",
        TrackerOp.observerReport [(0, true)]]).animateLog.count 0 ≤ 1
    ∧ (runOps [TrackerOp.add (some 0) "fadeInScale", TrackerOp.add (some 0) "fadeInScale",
        TrackerOp.observerReport [(0, true)]]).elements.get? 1
      = some ⟨0, "fadeInScale", false⟩
    ∧ (⟨0, "fadeInScale", false⟩ : TrackedItem).animated = false
    ∧ ((addElement (addElement trackerInit (some 0) "fadeInScale") (some 0)
        "fadeInScale").elements.map (fun x => x.element)).count 0 = 2 := by
  refine ⟨(duplicate_registration [TrackerOp.add (some 0) "fadeInScale",
    TrackerOp.add (some 0) "fadeInScale", TrackerOp.observerReport [(0, true)]] 0).1,
    by decide, ?_, ?_⟩
  · exact (duplicate_registration [TrackerOp.add (some 0) "fadeInScale",
      TrackerOp.add (some 0) "fadeInScale", TrackerOp.observerReport [(0, true)]] 0).2.1
      0 1 ⟨0, "fadeInScale", true⟩ ⟨0, "fadeInScale", false⟩ (by omega) (by decide) (by decide)
      (by decide)
  · have h := (duplicate_registration [] 0).2.2 trackerInit "fadeInScale" "fadeInScale"
    simpa [trackerInit] using h
